import Mathlib

/-!
Shallow embedding of `tensor.py` (the tensor-typed frontend of a symbolic
expression compiler): the `Tensor` result type with its dtype/broadcastable
descriptor and buffer validation, the `_Op` base with dtype propagation, and
the concrete ops `Subtensor`, `Argmax`, `Dot`, `Gemm`, together with theorems
checking the specification's claims against these definitions.
-/

set_option autoImplicit false

namespace Theano

/-- The closed set of element dtypes supported by `Tensor.dtype_specs`. -/
inductive Dtype where
  | float32 | float64
  | int8 | int16 | int32 | int64
  | complex64 | complex128
deriving DecidableEq, Repr

/-- A rank-2 buffer of exact scalars (the reference evaluator's matrices;
exact arithmetic stands in for IEEE floats). -/
def Mat (m n : Nat) : Type := Fin m → Fin n → ℚ

instance (m n : Nat) : DecidableEq (Mat m n) := by
  unfold Mat; infer_instance

/-- `numpy.dot` on rank-2 arguments: ordinary matrix product. -/
def matMul {m k n : Nat} (x : Mat m k) (y : Mat k n) : Mat m n :=
  fun i j => (Finset.univ : Finset (Fin k)).sum fun l => x i l * y l j

/-- A concrete rank-2 buffer together with its object identity, so that
in-place mutation versus reallocation is observable. -/
structure Buf (m n : Nat) where
  id : Nat
  val : Mat m n

/-- The rank-2 branch of `Gemm.impl`: the special-cased dispatch on the
values of `b` (0, 1, other) and `a` (1, -1, other), mutating `z` in place.
Translated branch for branch from the source. -/
def gemmImplRank2 {m k n : Nat} (z : Mat m n) (a : ℚ) (x : Mat m k)
    (y : Mat k n) (b : ℚ) : Mat m n :=
  if b = 0 then
    if a = 1 then
      matMul x y
    else if a = -1 then
      fun i j => -(matMul x y i j)
    else
      fun i j => a * matMul x y i j
  else if b = 1 then
    if a = 1 then
      fun i j => z i j + matMul x y i j
    else if a = -1 then
      fun i j => z i j - matMul x y i j
    else
      fun i j => z i j + a * matMul x y i j
  else
    fun i j => b * z i j + a * matMul x y i j

/-- `Gemm.impl` on a rank-2 `z` buffer: mutates `z`'s buffer in place
(the identity of the buffer is preserved) and returns that very buffer. -/
def Gemm.impl {m k n : Nat} (z : Buf m n) (a : ℚ) (x : Mat m k)
    (y : Mat k n) (b : ℚ) : Buf m n :=
  { id := z.id, val := gemmImplRank2 z.val a x y b }

/-- Claim C1: for every Gemm node on rank-2 matrices with compatible shapes
and scalar coefficients `a`, `b` (including the special-cased values 0, 1 and
-1), the reference evaluator leaves `z`'s buffer holding `b·z₀ + a·(x·y)`
where `z₀` is the pre-call contents, and it returns the very same buffer
object as `z`'s (identity, not a copy). -/
theorem gemm_impl_correct {m k n : Nat} (zid : Nat) (z0 : Mat m n) (a b : ℚ)
    (x : Mat m k) (y : Mat k n) :
    (Gemm.impl ⟨zid, z0⟩ a x y b).id = zid ∧
    (Gemm.impl ⟨zid, z0⟩ a x y b).val
      = fun i j => b * z0 i j + a * matMul x y i j := by
  refine ⟨rfl, ?_⟩
  show gemmImplRank2 z0 a x y b = _
  unfold gemmImplRank2
  split_ifs <;> funext i j <;> subst_vars <;> ring

/-- A host strided buffer, abstracted to its shape and element dtype (the
validation code in `Tensor.filter` reads only these). -/
structure NDArray where
  shape : List Nat
  dtype : Dtype
deriving DecidableEq, Repr

/-- `numpy.asarray(arr, dtype)` as used by `Tensor.filter`: the identity when
the dtype already matches, otherwise an element cast, which keeps the shape. -/
def asarray (arr : NDArray) (d : Dtype) : NDArray :=
  if arr.dtype = d then arr else { shape := arr.shape, dtype := d }

/-- The two error kinds of `Tensor.filter`: `e_rank` is the string
"wrong rank" and `e_shape` is "non-unit size on broadcastable dimension". -/
inductive FilterError where
  | e_rank
  | e_shape
deriving DecidableEq, Repr

/-- The symbolic `Tensor` result: dtype and broadcastable descriptor, name,
optional buffer, and an object identity so that returning the same object
(rather than a copy) is observable in the model. -/
structure Tensor where
  id : Nat
  dtype : Dtype
  broadcastable : List Bool
  name : Option String := none
  data : Option NDArray := none
deriving DecidableEq, Repr

/-- `Tensor.filter`: cast the argument to the tensor's dtype, then check its
rank against `broadcastable`, then check every broadcastable axis has size
1; on success return the (possibly cast) array. -/
def Tensor.filter (r : Tensor) (arr0 : NDArray) : Except FilterError NDArray :=
  let arr := asarray arr0 r.dtype
  if r.broadcastable.length ≠ arr.shape.length then
    .error .e_rank
  else if (r.broadcastable.zip arr.shape).any fun p => p.1 && decide (p.2 ≠ 1) then
    .error .e_shape
  else
    .ok arr

/-- The assignment `r.data = a`: run `filter` and store the validated
buffer. -/
def Tensor.setData (r : Tensor) (arr : NDArray) : Except FilterError Tensor :=
  (r.filter arr).map fun a2 => { r with data := some a2 }

theorem zip_any_nonunit_iff : ∀ (l1 : List Bool) (l2 : List Nat),
    l1.length = l2.length →
    ((((l1.zip l2).any fun p => p.1 && decide (p.2 ≠ 1)) = true) ↔
      ∃ i : Fin l1.length, l1.get i = true ∧ l2.getD i 1 ≠ 1)
  | [], [], _ => by simp
  | [], _ :: _, h => by simp at h
  | _ :: _, [], h => by simp at h
  | b :: l1, s :: l2, h => by
    have ih := zip_any_nonunit_iff l1 l2 (by simpa using h)
    constructor
    · intro hc
      simp only [List.zip_cons_cons, List.any_cons, Bool.or_eq_true] at hc
      rcases hc with hc | hc
      · simp only [Bool.and_eq_true, decide_eq_true_eq] at hc
        exact ⟨⟨0, by simp⟩, by simp [hc.1], by simp [hc.2]⟩
      · rcases ih.mp hc with ⟨i, hi1, hi2⟩
        refine ⟨⟨i.val + 1, by simp [i.isLt]⟩, ?_, ?_⟩
        · simpa using hi1
        · simpa using hi2
    · intro hc
      rcases hc with ⟨⟨iv, hlt⟩, hi1, hi2⟩
      simp only [List.zip_cons_cons, List.any_cons, Bool.or_eq_true]
      cases iv with
      | zero =>
        left
        simp only [List.get] at hi1
        simp only [Fin.val_mk, List.getD_cons_zero] at hi2
        simp [hi1, hi2]
      | succ j =>
        right
        apply ih.mpr
        refine ⟨⟨j, by simpa using hlt⟩, ?_, ?_⟩
        · simpa using hi1
        · simpa using hi2

/-- Claim C4: assigning `r.data = a` first casts `a` to `r`'s dtype, then
fails with "wrong rank" when the cast array's rank differs from the length
of `r.broadcastable`, then fails with "non-unit size on broadcastable
dimension" when some broadcastable axis has size other than 1, and otherwise
stores exactly the cast array. -/
theorem setData_checks (r : Tensor) (arr : NDArray) :
    Tensor.setData r arr =
      if (asarray arr r.dtype).shape.length ≠ r.broadcastable.length then
        .error FilterError.e_rank
      else if ∃ i : Fin r.broadcastable.length,
          r.broadcastable.get i = true ∧
          (asarray arr r.dtype).shape.getD i 1 ≠ 1 then
        .error FilterError.e_shape
      else
        .ok { r with data := some (asarray arr r.dtype) } := by
  simp only [Tensor.setData, Tensor.filter]
  by_cases hlen : r.broadcastable.length = (asarray arr r.dtype).shape.length
  · have h1 : ¬(r.broadcastable.length ≠ (asarray arr r.dtype).shape.length) := by
      omega
    have h2 : ¬((asarray arr r.dtype).shape.length ≠ r.broadcastable.length) := by
      omega
    rw [if_neg h1, if_neg h2]
    by_cases hbad : ((r.broadcastable.zip (asarray arr r.dtype).shape).any
        fun p => p.1 && decide (p.2 ≠ 1)) = true
    · rw [if_pos hbad, if_pos ((zip_any_nonunit_iff _ _ hlen).mp hbad)]
      rfl
    · rw [if_neg hbad,
        if_neg (fun hc => hbad ((zip_any_nonunit_iff _ _ hlen).mpr hc))]
      rfl
  · have h1 : r.broadcastable.length ≠ (asarray arr r.dtype).shape.length := hlen
    have h2 : (asarray arr r.dtype).shape.length ≠ r.broadcastable.length :=
      fun hc => hlen hc.symm
    rw [if_pos h1, if_pos h2]
    rfl

/-- The two error kinds of `_Op.propagate_dtype`: `e_no_inputs` is "Cannot
infer the dtypes of the outputs with no Tensor inputs." and `e_mixed` is
"The dtypes of all inputs should be identical.". -/
inductive DtypeError where
  | e_no_inputs
  | e_mixed
deriving DecidableEq, Repr

/-- `_Op.propagate_dtype`: form the set of non-null input dtypes; fail when
it is empty or has more than one element, otherwise replicate its unique
element across the op's `nout` outputs. -/
def propagate_dtype (nout : Nat) (i_dtypes : List (Option Dtype)) :
    Except DtypeError (List Dtype) :=
  match (i_dtypes.filterMap id).dedup with
  | [] => .error .e_no_inputs
  | [d] => .ok (List.replicate nout d)
  | _ :: _ :: _ => .error .e_mixed

theorem dedup_eq_single {α : Type} [DecidableEq α] (d : α) (l : List α)
    (hmem : d ∈ l) (hall : ∀ e ∈ l, e = d) : l.dedup = [d] := by
  have h1 : ∀ e ∈ l.dedup, e = d := fun e he => hall e (List.mem_dedup.mp he)
  have h2 : d ∈ l.dedup := List.mem_dedup.mpr hmem
  have h3 := l.nodup_dedup
  cases hL : l.dedup with
  | nil => rw [hL] at h2; simp at h2
  | cons a t =>
    rw [hL] at h1 h3
    have ha : a = d := h1 a (by simp)
    cases t with
    | nil => rw [ha]
    | cons b t2 =>
      have hb : b = d := h1 b (by simp)
      rw [List.nodup_cons] at h3
      exact absurd (by rw [ha, ← hb]; simp) h3.1

theorem mem_filterMap_id {α : Type} (l : List (Option α)) (x : α) :
    x ∈ l.filterMap id ↔ some x ∈ l := by
  simp [List.mem_filterMap]

/-- Claim C5: the default dtype propagation fails when the set of non-null
input dtypes is empty, fails when it holds more than one dtype, and
otherwise gives every one of the op's `nout` outputs the unique dtype. -/
theorem propagate_dtype_cases (nout : Nat) (ds : List (Option Dtype)) :
    ((∀ d : Dtype, some d ∉ ds) →
      propagate_dtype nout ds = .error DtypeError.e_no_inputs) ∧
    (∀ d e : Dtype, some d ∈ ds → some e ∈ ds → d ≠ e →
      propagate_dtype nout ds = .error DtypeError.e_mixed) ∧
    (∀ d : Dtype, some d ∈ ds → (∀ e : Dtype, some e ∈ ds → e = d) →
      propagate_dtype nout ds = .ok (List.replicate nout d)) := by
  refine ⟨?_, ?_, ?_⟩
  · intro hnone
    have hfm : ds.filterMap id = [] := by
      rw [List.eq_nil_iff_forall_not_mem]
      intro x hx
      exact hnone x ((mem_filterMap_id ds x).mp hx)
    unfold propagate_dtype
    rw [hfm]
    rfl
  · intro d e hd he hne
    have hd2 : d ∈ (ds.filterMap id).dedup :=
      List.mem_dedup.mpr ((mem_filterMap_id ds d).mpr hd)
    have he2 : e ∈ (ds.filterMap id).dedup :=
      List.mem_dedup.mpr ((mem_filterMap_id ds e).mpr he)
    unfold propagate_dtype
    cases hL : (ds.filterMap id).dedup with
    | nil => rw [hL] at hd2; simp at hd2
    | cons a t =>
      cases t with
      | nil =>
        rw [hL] at hd2 he2
        simp at hd2 he2
        exact absurd (hd2.trans he2.symm) hne
      | cons b t2 => rfl
  · intro d hd hall
    have heq : (ds.filterMap id).dedup = [d] :=
      dedup_eq_single d _ ((mem_filterMap_id ds d).mpr hd)
        (fun e he => hall e ((mem_filterMap_id ds e).mp he))
    unfold propagate_dtype
    rw [heq]

/-- Witness for `propagate_dtype_cases` at a concrete dtype list. -/
theorem propagate_dtype_cases_witness :
    propagate_dtype 2 [some Dtype.float64, none]
      = .ok [Dtype.float64, Dtype.float64] := by
  have h := (propagate_dtype_cases 2 [some Dtype.float64, none]).2.2
    Dtype.float64 (by simp) (by intro e he; simpa using he)
  simpa using h

/-- Error kinds raised while a `Gemm` node is constructed. `e_rank` is the
string "gemm only works for rank 2", `e_scalar` is "gemm requires scalar
argument", `e_z_uniq` is "argument z aliased to x or y", and `e_dtype`
stands for the dtype-propagation failures of the `_Op` base. -/
inductive GemmError where
  | e_rank
  | e_scalar
  | e_z_uniq
  | e_dtype
deriving DecidableEq, Repr

/-- `Gemm.propagate_broadcastable`: `z`, `x`, `y` must be rank 2 and `a`,
`b` rank 0, checked in that order; the single output takes `z`'s pattern. -/
def Gemm.propagate_broadcastable (bz ba bx byv bb : List Bool) :
    Except GemmError (List (List Bool)) :=
  if bz.length ≠ 2 then .error .e_rank
  else if bx.length ≠ 2 then .error .e_rank
  else if byv.length ≠ 2 then .error .e_rank
  else if ba.length ≠ 0 then .error .e_scalar
  else if bb.length ≠ 0 then .error .e_scalar
  else .ok [bz]

/-- `Gemm.__init__`: the `_Op` base first propagates broadcastable patterns
and dtypes, then the constructor intersects the view roots of `z` with those
of `x` and with those of `y`. The roots are computed by the external graph
helper `gof.view_roots` and are taken as arguments here. Returns the output
patterns. -/
def Gemm.init (bz ba bx byv bb : List Bool) (dz da dx dy db : Dtype)
    (zr xr yr : List Nat) : Except GemmError (List (List Bool)) :=
  (Gemm.propagate_broadcastable bz ba bx byv bb).bind fun obs =>
    match propagate_dtype 1 [some dz, some da, some dx, some dy, some db] with
    | .error _ => .error .e_dtype
    | .ok _ =>
      if zr.inter xr ≠ [] then .error .e_z_uniq
      else if zr.inter yr ≠ [] then .error .e_z_uniq
      else .ok obs

theorem gemm_pb_rank (bz ba bx byv bb : List Bool)
    (h : bz.length ≠ 2 ∨ bx.length ≠ 2 ∨ byv.length ≠ 2) :
    Gemm.propagate_broadcastable bz ba bx byv bb = .error .e_rank := by
  unfold Gemm.propagate_broadcastable
  by_cases h1 : bz.length ≠ 2
  · rw [if_pos h1]
  · rw [if_neg h1]
    by_cases h2 : bx.length ≠ 2
    · rw [if_pos h2]
    · rw [if_neg h2]
      rw [if_pos (by tauto)]

theorem gemm_pb_scalar (bz ba bx byv bb : List Bool)
    (hz : bz.length = 2) (hx : bx.length = 2) (hy : byv.length = 2)
    (h : ba.length ≠ 0 ∨ bb.length ≠ 0) :
    Gemm.propagate_broadcastable bz ba bx byv bb = .error .e_scalar := by
  unfold Gemm.propagate_broadcastable
  rw [if_neg (by omega), if_neg (fun hc => hc hx), if_neg (fun hc => hc hy)]
  by_cases h1 : ba.length ≠ 0
  · rw [if_pos h1]
  · rw [if_neg h1, if_pos (by tauto)]

theorem gemm_pb_ok (bz ba bx byv bb : List Bool)
    (hz : bz.length = 2) (hx : bx.length = 2) (hy : byv.length = 2)
    (ha2 : ba.length = 0) (hb2 : bb.length = 0) :
    Gemm.propagate_broadcastable bz ba bx byv bb = .ok [bz] := by
  unfold Gemm.propagate_broadcastable
  rw [if_neg (fun hc => hc hz), if_neg (fun hc => hc hx),
    if_neg (fun hc => hc hy), if_neg (fun hc => hc ha2),
    if_neg (fun hc => hc hb2)]

theorem propagate_dtype_same (d : Dtype) :
    propagate_dtype 1 [some d, some d, some d, some d, some d] = .ok [d] := by
  have hf : ([some d, some d, some d, some d, some d] :
      List (Option Dtype)).filterMap id = [d, d, d, d, d] := by simp
  have hdd : ([d, d, d, d, d] : List Dtype).dedup = [d] :=
    dedup_eq_single d _ (by simp) (by intro e he; simpa using he)
  unfold propagate_dtype
  rw [hf, hdd]
  rfl

/-- Claim C2: Gemm construction fails with "gemm only works for rank 2" when
any of `z`, `x`, `y` has rank other than 2; otherwise fails with "gemm
requires scalar argument" when `a` or `b` has rank at least 1; otherwise
fails with "argument z aliased to x or y" when `z`'s view roots intersect
those of `x` or of `y`; and otherwise succeeds, the single output's
broadcast pattern being `z`'s. All five inputs carry one common dtype `d`,
so the base class's dtype propagation succeeds. -/
theorem gemm_init_checks (bz ba bx byv bb : List Bool) (d : Dtype)
    (zr xr yr : List Nat) :
    Gemm.init bz ba bx byv bb d d d d d zr xr yr =
      if bz.length ≠ 2 ∨ bx.length ≠ 2 ∨ byv.length ≠ 2 then
        .error GemmError.e_rank
      else if 1 ≤ ba.length ∨ 1 ≤ bb.length then
        .error GemmError.e_scalar
      else if ∃ v, v ∈ zr ∧ (v ∈ xr ∨ v ∈ yr) then
        .error GemmError.e_z_uniq
      else
        .ok [bz] := by
  by_cases hr : bz.length ≠ 2 ∨ bx.length ≠ 2 ∨ byv.length ≠ 2
  · unfold Gemm.init
    rw [gemm_pb_rank bz ba bx byv bb hr, if_pos hr]
    rfl
  · push_neg at hr
    obtain ⟨hz, hx, hy⟩ := hr
    have hnr : ¬(bz.length ≠ 2 ∨ bx.length ≠ 2 ∨ byv.length ≠ 2) := by
      simp [hz, hx, hy]
    by_cases hs : 1 ≤ ba.length ∨ 1 ≤ bb.length
    · unfold Gemm.init
      rw [gemm_pb_scalar bz ba bx byv bb hz hx hy (by omega),
        if_neg hnr, if_pos hs]
      rfl
    · push_neg at hs
      obtain ⟨ha2, hb2⟩ := hs
      have hns : ¬(1 ≤ ba.length ∨ 1 ≤ bb.length) := by omega
      have hL : Gemm.init bz ba bx byv bb d d d d d zr xr yr =
          (if zr.inter xr ≠ [] then Except.error GemmError.e_z_uniq
           else if zr.inter yr ≠ [] then Except.error GemmError.e_z_uniq
           else Except.ok [bz]) := by
        unfold Gemm.init
        rw [gemm_pb_ok bz ba bx byv bb hz hx hy (by omega) (by omega)]
        simp only [propagate_dtype_same d, Except.bind]
      rw [hL, if_neg hnr, if_neg hns]
      by_cases hin : ∃ v, v ∈ zr ∧ (v ∈ xr ∨ v ∈ yr)
      · rw [if_pos hin]
        obtain ⟨v, hvz, hvxy⟩ := hin
        rcases hvxy with hvx | hvy
        · rw [if_pos (show zr.inter xr ≠ [] from
            List.ne_nil_of_mem (List.mem_inter_iff.mpr ⟨hvz, hvx⟩))]
        · by_cases hix : zr.inter xr ≠ []
          · rw [if_pos hix]
          · rw [if_neg hix,
              if_pos (show zr.inter yr ≠ [] from
                List.ne_nil_of_mem (List.mem_inter_iff.mpr ⟨hvz, hvy⟩))]
      · rw [if_neg hin]
        push_neg at hin
        have hix : zr.inter xr = [] := by
          rw [List.eq_nil_iff_forall_not_mem]
          intro v hv
          rcases List.mem_inter_iff.mp hv with ⟨h1, h2⟩
          exact (hin v h1).1 h2
        have hiy : zr.inter yr = [] := by
          rw [List.eq_nil_iff_forall_not_mem]
          intro v hv
          rcases List.mem_inter_iff.mp hv with ⟨h1, h2⟩
          exact (hin v h1).2 h2
        rw [if_neg (fun hc => hc hix), if_neg (fun hc => hc hiy)]

/-- The test opening `Gemm.impl`: `z.shape == ()`, selecting the scalar-z
branch. -/
def gemmScalarBranch (z : NDArray) : Bool := z.shape = []

/-- Claim C10: the scalar-z branch of `Gemm.impl` is unreachable for nodes
built through the constructor: `Gemm.propagate_broadcastable` only succeeds
when `z`'s pattern has length 2, and `Tensor.filter` then forces every
buffer bound to `z` to have rank 2, so the `z.shape == ()` test is false and
`impl` takes the rank-2 dispatch path. -/
theorem gemm_scalar_branch_unreachable (bz ba bx byv bb : List Bool)
    (r : Tensor) (arr arr2 : NDArray)
    (hok : ∃ obs, Gemm.propagate_broadcastable bz ba bx byv bb
      = .ok obs)
    (hbz : r.broadcastable = bz)
    (hfil : r.filter arr = .ok arr2) :
    arr2.shape.length = 2 ∧ gemmScalarBranch arr2 = false := by
  obtain ⟨obs, hpb⟩ := hok
  have hz : bz.length = 2 := by
    by_contra hc
    rw [gemm_pb_rank bz ba bx byv bb (Or.inl hc)] at hpb
    exact Except.noConfusion hpb
  have hrank : arr2.shape.length = 2 := by
    unfold Tensor.filter at hfil
    by_cases h1 : r.broadcastable.length = (asarray arr r.dtype).shape.length
    · rw [if_neg (fun hc => hc h1)] at hfil
      by_cases h2 : ((r.broadcastable.zip (asarray arr r.dtype).shape).any
          fun p => p.1 && decide (p.2 ≠ 1)) = true
      · rw [if_pos h2] at hfil
        exact Except.noConfusion hfil
      · rw [if_neg h2] at hfil
        have : asarray arr r.dtype = arr2 := by
          injection hfil
        rw [← this, ← h1, hbz, hz]
    · rw [if_pos h1] at hfil
      exact Except.noConfusion hfil
  refine ⟨hrank, ?_⟩
  unfold gemmScalarBranch
  have : arr2.shape ≠ [] := by
    intro hc
    rw [hc] at hrank
    simp at hrank
  exact decide_eq_false this

/-- Witness for `gemm_scalar_branch_unreachable` at a concrete node and
buffer. -/
theorem gemm_scalar_branch_unreachable_witness :
    ((⟨[2, 3], Dtype.float64⟩ : NDArray).shape.length = 2 ∧
      gemmScalarBranch ⟨[2, 3], Dtype.float64⟩ = false) := by
  exact gemm_scalar_branch_unreachable
    [false, false] [] [false, false] [false, false] []
    ⟨0, Dtype.float64, [false, false], none, none⟩
    ⟨[2, 3], Dtype.float64⟩ ⟨[2, 3], Dtype.float64⟩
    ⟨[[false, false]], rfl⟩ rfl rfl

/-- An entry of the Subtensor index tuple: a Python slice or an integer. -/
inductive IndexEntry where
  | islice (start stop step : Int)
  | iint (i : Int)
deriving DecidableEq, Repr

/-- `sys.maxint` on a 64-bit host. -/
def maxint : Int := 2 ^ 63 - 1

/-- The implicit unbounded slice `slice(0, sys.maxint, 1)` used for
padding. -/
def fullSlice : IndexEntry := .islice 0 maxint 1

/-- Is this entry a slice (as opposed to an integer)? -/
def IndexEntry.isSlice : IndexEntry → Bool
  | .islice _ _ _ => true
  | .iint _ => false

/-- `pad` from `Subtensor.__init__`: the loop `for i in range(len(l), N)`
appends one unbounded slice per missing position. -/
def padIndex (l : List IndexEntry) (n : Nat) : List IndexEntry :=
  l ++ ((List.range (n - l.length)).map fun _ => fullSlice)

/-- The error of `Subtensor.__init__`: the string "invalid index". -/
inductive SubtensorError where
  | e_invalid
deriving DecidableEq, Repr

/-- `Subtensor.__init__` on base descriptor `(tb, td)` and index tuple
`coord`: check the tuple length against the base's rank, pad with unbounded
slices, and build the single output's descriptor (one all-false broadcast
flag per slice entry of the padded tuple, and the base's dtype). Returns
the padded tuple together with the output descriptor. -/
def Subtensor.init (tb : List Bool) (td : Dtype) (coord : List IndexEntry) :
    Except SubtensorError (List IndexEntry × List Bool × Dtype) :=
  if coord.length > tb.length then .error .e_invalid
  else
    let padded := padIndex coord tb.length
    .ok (padded, (padded.filter fun c => c.isSlice).map fun _ => false, td)

/-- `Subtensor.view_map`: the single output (index 0) aliases input 0, the
base. -/
def Subtensor.view_map : List (Nat × List Nat) := [(0, [0])]

theorem range_map_fullSlice (k : Nat) :
    ((List.range k).map fun _ => fullSlice) = List.replicate k fullSlice := by
  induction k with
  | zero => rfl
  | succ n ih =>
    rw [List.range_succ, List.map_append, ih, List.replicate_succ']
    rfl

theorem map_false_eq_replicate (l : List IndexEntry) :
    (l.map fun _ => false) = List.replicate l.length false := by
  induction l with
  | nil => rfl
  | cons a t ih => rw [List.map_cons, ih, List.length_cons, List.replicate_succ]

/-- Claim C3: Subtensor construction fails with "invalid index" when the
index tuple is longer than the base's rank; otherwise the index is
right-padded with `slice(0, sys.maxint, 1)` up to the base's rank and the
single output has one all-false broadcast flag per slice entry of the
padded index (integer entries drop their axis) and the base's dtype, while
`view_map` maps the output to the base. -/
theorem subtensor_init_spec (tb : List Bool) (td : Dtype)
    (coord : List IndexEntry) :
    (Subtensor.init tb td coord =
      if coord.length > tb.length then .error SubtensorError.e_invalid
      else
        .ok (coord ++ List.replicate (tb.length - coord.length) fullSlice,
          List.replicate
            ((coord ++ List.replicate (tb.length - coord.length)
              fullSlice).countP fun c => c.isSlice) false,
          td)) ∧
    Subtensor.view_map = [(0, [0])] := by
  refine ⟨?_, rfl⟩
  simp only [Subtensor.init]
  by_cases h : coord.length > tb.length
  · rw [if_pos h, if_pos h]
  · rw [if_neg h, if_neg h]
    have hpad : padIndex coord tb.length =
        coord ++ List.replicate (tb.length - coord.length) fullSlice := by
      unfold padIndex
      rw [range_map_fullSlice]
    rw [hpad, map_false_eq_replicate, List.countP_eq_length_filter]

/-- `Dot.broadcastable_rule`, translated from the source's if/elif chain:
Python's `bx[:-1]` is `dropLast`, `by[:-2]` is two `dropLast`s, and
`by[-1:]` is `drop (length - 1)`. -/
def Dot.broadcastable_rule (bx byv : List Bool) : List Bool :=
  if bx.length = 0 then byv
  else
    if byv.length ≥ 2 then
      bx.dropLast ++ byv.dropLast.dropLast ++ byv.drop (byv.length - 1)
    else if byv.length = 1 then bx.dropLast
    else bx

/-- Claim C6: the output broadcast pattern of `Dot(x, y)` follows the
rank-sensitive table: `by` when `x` is scalar; `bx` when `y` is scalar;
`bx[:-1]` when `y` is a vector; and `bx[:-1] + by[:-2] + by[-1:]` when `y`
has rank at least 2. -/
theorem dot_broadcastable_rule_table (bx byv : List Bool) :
    Dot.broadcastable_rule bx byv =
      if bx.length = 0 then byv
      else if byv.length = 0 then bx
      else if byv.length = 1 then bx.dropLast
      else bx.dropLast ++ byv.dropLast.dropLast
        ++ byv.drop (byv.length - 1) := by
  unfold Dot.broadcastable_rule
  by_cases h0 : bx.length = 0
  · rw [if_pos h0, if_pos h0]
  · rw [if_neg h0, if_neg h0]
    by_cases h2 : 2 ≤ byv.length
    · have hy0 : ¬(byv.length = 0) := by omega
      have hy1 : ¬(byv.length = 1) := by omega
      rw [if_pos h2, if_neg hy0, if_neg hy1]
    · by_cases h1 : byv.length = 1
      · have hy0 : ¬(byv.length = 0) := by omega
        rw [if_neg h2, if_pos h1, if_neg hy0, if_pos h1]
      · have hy0 : byv.length = 0 := by omega
        rw [if_neg h2, if_neg h1, if_pos hy0]

/-- `Argmax.__init__` on `x`'s descriptor and an optional integer axis: a
null axis defaults to `len(x.broadcastable) - 1`; the axis then goes
through `_as_tensor`, which turns a host integer into an `int64` scalar
result; both outputs get the all-false pattern `[0] * (rank(x) - 1)` and
carry `x`'s dtype and the coerced axis result's dtype respectively.
Returns the coerced axis value with its dtype, and the two output
descriptors. -/
def Argmax.init (xb : List Bool) (xd : Dtype) (axis : Option Int) :
    (Int × Dtype) × List (List Bool × Dtype) :=
  let axisVal : Int :=
    match axis with
    | none => (xb.length : Int) - 1
    | some a2 => a2
  let axisDtype := Dtype.int64
  let ob : List Bool := List.replicate (xb.length - 1) false
  ((axisVal, axisDtype), [(ob, xd), (ob, axisDtype)])

/-- `Argmax.perform`: store the host's `numpy.max` of `x` along the axis
into output 0 and the host's `numpy.argmax` into output 1. The host
reductions live outside this module and are taken as arguments. -/
def Argmax.perform (hostMax hostArgmax : NDArray → Int → NDArray)
    (x : NDArray) (axisVal : Int) : NDArray × NDArray :=
  (hostMax x axisVal, hostArgmax x axisVal)

/-- Claim C7: an `Argmax(x, axis)` node defaults a null axis to the last
axis `rank(x) - 1`; it has exactly two outputs, both with the all-false
broadcast pattern of length `rank(x) - 1`, the first with `x`'s dtype and
the second with the coerced axis result's dtype (`int64` for a host
integer); and `perform` stores the host max in output 0 and the host
argmax in output 1. -/
theorem argmax_init_spec (xb : List Bool) (xd : Dtype) (axis : Option Int)
    (hostMax hostArgmax : NDArray → Int → NDArray) (x : NDArray)
    (a2 : Int) :
    (Argmax.init xb xd axis).1
      = (axis.getD ((xb.length : Int) - 1), Dtype.int64) ∧
    (Argmax.init xb xd axis).2
      = [(List.replicate (xb.length - 1) false, xd),
         (List.replicate (xb.length - 1) false, Dtype.int64)] ∧
    Argmax.perform hostMax hostArgmax x a2
      = (hostMax x a2, hostArgmax x a2) := by
  refine ⟨?_, rfl, rfl⟩
  cases axis <;> rfl

/-- A Python value passed as the `broadcastable` argument: either a
sequence of flags, or a bare boolean (`vector` passes `(False)`, which is
the scalar `False`, not a 1-tuple). -/
inductive PyBroadcastArg where
  | seq (bs : List Bool)
  | boolVal (b : Bool)
deriving DecidableEq, Repr

/-- Python's TypeError, as raised by `tuple(False)`: a bool is not
iterable. -/
inductive PyError where
  | typeError
deriving DecidableEq, Repr

/-- `tuple(broadcastable)` in `Tensor.__init__`: iterating a sequence
yields its entries, while iterating a bare bool raises TypeError. -/
def tupleOfBroadcastArg : PyBroadcastArg → Except PyError (List Bool)
  | .seq bs => .ok bs
  | .boolVal _ => .error .typeError

/-- `Tensor.__init__`: store the dtype (every `Dtype` value passes the
closed `dtype_specs` table) and store `tuple(broadcastable)` as the
descriptor; no data is allocated. -/
def Tensor.init (dtype : Dtype) (broadcastable : PyBroadcastArg)
    (nm : Option String) (freshId : Nat) : Except PyError Tensor :=
  (tupleOfBroadcastArg broadcastable).map fun bs =>
    { id := freshId, dtype := dtype, broadcastable := bs, name := nm,
      data := none }

/-- `vector(name)`: `Tensor(name = name, dtype = 'float64',
broadcastable = (False))` — the parenthesised `False` without a comma is
the bare boolean, not a 1-tuple. -/
def vector (nm : String) (freshId : Nat) : Except PyError Tensor :=
  Tensor.init Dtype.float64 (.boolVal false) (some nm) freshId

/-- Claim C9 (against the code): `vector(name)` never returns a rank-1
tensor with pattern `(False,)` — because the source passes the bare
boolean `False` as `broadcastable`, `tuple(False)` inside
`Tensor.__init__` raises TypeError for every name. -/
theorem vector_raises_typeError (nm : String) (freshId : Nat) :
    vector nm freshId = .error PyError.typeError := rfl

/-- A value passed to `astensor`: an existing `Tensor`, some other
`Result` subtype, a host array-like, or Python `None`. -/
inductive HostValue where
  | tensor (t : Tensor)
  | otherResult
  | array (a : NDArray)
  | noneVal
deriving DecidableEq, Repr

/-- Errors raised along `astensor`. -/
inductive AstensorError where
  | wrongBroadcastable
  | cannotRename
  | typeErrorIter
  | nonTensorResult
  | noneData
  | unsupportedDtype
  | badData
deriving DecidableEq, Repr

/-- `astensor(data, broadcastable=None, name=None)`: an existing `Tensor`
is returned itself after the broadcastable and name compatibility checks;
other `Result` subtypes and `None` are rejected; a host array is wrapped
in a fresh `Tensor` whose pattern defaults to the size-1 flags of the
array's shape, with the data assigned through `filter`. -/
def astensor (data : HostValue) (broadcastable : Option PyBroadcastArg)
    (nm : Option String) (freshId : Nat) : Except AstensorError Tensor :=
  match data with
  | .tensor t =>
    match broadcastable with
    | some (.seq bs) =>
      if t.broadcastable ≠ bs then .error .wrongBroadcastable
      else if nm ≠ none ∧ nm ≠ t.name then .error .cannotRename
      else .ok t
    | some (.boolVal _) => .error .typeErrorIter
    | none =>
      if nm ≠ none ∧ nm ≠ t.name then .error .cannotRename
      else .ok t
  | .otherResult => .error .nonTensorResult
  | .noneVal =>
    if broadcastable = none then .error .noneData
    else .error .unsupportedDtype
  | .array a =>
    let bs : List Bool :=
      match broadcastable with
      | none => a.shape.map fun s => decide (s = 1)
      | some (.boolVal b) => List.replicate a.shape.length b
      | some (.seq bs) => bs
    let rval : Tensor :=
      { id := freshId, dtype := a.dtype, broadcastable := bs, name := nm,
        data := none }
    (rval.setData a).mapError fun _ => .badData

/-- Claim C8: `astensor` is idempotent: whenever it accepts a value and
returns the tensor `t`, applying it again to `t` (with the default null
`broadcastable` and `name`) yields the same object `t`; and on an
existing `Tensor` with a matching `broadcastable` argument and a null or
matching `name` it likewise returns that tensor itself, not a copy. -/
theorem astensor_idempotent (v : HostValue) (brd : Option PyBroadcastArg)
    (nm : Option String) (fid fid2 : Nat) (t : Tensor)
    (nm2 : Option String)
    (_h : astensor v brd nm fid = .ok t)
    (hnm2 : nm2 = none ∨ nm2 = t.name) :
    astensor (.tensor t) none none fid2 = .ok t ∧
    astensor (.tensor t) (some (.seq t.broadcastable)) nm2 fid2
      = .ok t := by
  constructor
  · show (if (none : Option String) ≠ none ∧ (none : Option String) ≠ t.name
      then Except.error AstensorError.cannotRename else Except.ok t) = .ok t
    rw [if_neg]
    intro hc
    exact hc.1 rfl
  · show (if t.broadcastable ≠ t.broadcastable
        then Except.error AstensorError.wrongBroadcastable
      else if nm2 ≠ none ∧ nm2 ≠ t.name
        then Except.error AstensorError.cannotRename
      else Except.ok t) = .ok t
    rw [if_neg (fun hc => hc rfl), if_neg]
    intro hc
    rcases hnm2 with h2 | h2
    · exact hc.1 h2
    · exact hc.2 h2

/-- Witness for `astensor_idempotent`: wrapping a concrete length-2 host
array and re-wrapping the resulting tensor. -/
theorem astensor_idempotent_witness :
    astensor
        (.tensor ⟨5, Dtype.float64, [false], none,
          some ⟨[2], Dtype.float64⟩⟩) none none 7
      = .ok ⟨5, Dtype.float64, [false], none,
          some ⟨[2], Dtype.float64⟩⟩ ∧
    astensor
        (.tensor ⟨5, Dtype.float64, [false], none,
          some ⟨[2], Dtype.float64⟩⟩) (some (.seq [false])) none 7
      = .ok ⟨5, Dtype.float64, [false], none,
          some ⟨[2], Dtype.float64⟩⟩ := by
  have h := astensor_idempotent (.array ⟨[2], Dtype.float64⟩) none none 5 7
    ⟨5, Dtype.float64, [false], none, some ⟨[2], Dtype.float64⟩⟩ none
    (by rfl) (Or.inl rfl)
  exact h

end Theano
